import Mathlib

/-!
Shallow embedding of `rospy/core.py` (lifecycle/shutdown coordination,
rate-limited logging, cached XML-RPC client registry) with theorems checking
the natural-language specification against the code.

Python dicts are modelled as association lists where a fresh binding is
prepended and lookup returns the first match; `rospy.Time` values and
`rospy.Duration` periods are modelled as integers.
-/

/-- Python `dict.get`: first (most recent) binding for the key, if any. -/
def dictGet {κ ν : Type} [DecidableEq κ] : List (κ × ν) → κ → Option ν
  | [], _ => none
  | (k, v) :: t, k0 => if k = k0 then some v else dictGet t k0

/-- Python `d[k] = v`: prepend a binding that shadows older ones. -/
def dictSet {κ ν : Type} [DecidableEq κ] (t : List (κ × ν)) (k : κ) (v : ν) :
    List (κ × ν) :=
  (k, v) :: t

/-! ## Rate-limited logging (`LoggingThrottle`, `LoggingIdentical`, `_base_logger`) -/

/-- `LoggingThrottle.__call__`: returns (emit decision, updated table).
Translated from the source: first branch fires when no timestamp is stored or
`(now - last) > Duration(period)`; the `elif last > now` branch rebinds the
whole table to a fresh dict holding only the caller's entry. -/
def loggingThrottle (table : List (Nat × Int)) (caller_id : Nat) (period : Int)
    (now : Int) : Bool × List (Nat × Int) :=
  match dictGet table caller_id with
  | none => (true, dictSet table caller_id now)
  | some last =>
    if now - last > period then (true, dictSet table caller_id now)
    else if last > now then (true, dictSet [] caller_id now)
    else (false, table)

/-- `LoggingIdentical.__call__`: emit iff the digest of `msg` differs from the
stored digest (or none is stored); store the digest on emission.  The md5
hexdigest is abstracted as the `digest` parameter. -/
def loggingIdentical (digest : String → String) (table : List (Nat × String))
    (caller_id : Nat) (msg : String) : Bool × List (Nat × String) :=
  let msg_hash := digest msg
  if dictGet table caller_id ≠ some msg_hash then
    (true, dictSet table caller_id msg_hash)
  else (false, table)

/-- The `throttle_identical` branch of `_base_logger`: evaluate the throttle
check first (when a period was supplied), then the identical check; emit when
either says so.  Both sub-calls mutate their tables regardless of whether the
message is finally emitted.  Returns (emitted, throttle table, dedup table). -/
def baseLoggerThrottleIdentical (digest : String → String) (msg : String)
    (throttle : Option Int) (caller_id : Nat) (now : Int)
    (tt : List (Nat × Int)) (it : List (Nat × String)) :
    Bool × List (Nat × Int) × List (Nat × String) :=
  let thr := match throttle with
    | none => (false, tt)
    | some p => loggingThrottle tt caller_id p now
  let ident := loggingIdentical digest it caller_id msg
  (ident.1 || thr.1, thr.2, ident.2)

/-- The `elif throttle` branch of `_base_logger`: emit iff the throttle check
passes. -/
def baseLoggerThrottle (throttle : Int) (caller_id : Nat)
    (now : Int) (tt : List (Nat × Int)) : Bool × List (Nat × Int) :=
  loggingThrottle tt caller_id throttle now

/-! ## Python string primitives used by `parse_rosrpc_uri` and `urlparse` -/

/-- Python `s.find(c)`: index of the first occurrence of `c`, if any. -/
def strFind (s : List Char) (c : Char) : Option Nat :=
  match s with
  | [] => none
  | x :: xs => if x = c then some 0 else (strFind xs c).map (· + 1)

/-- Python `s.find(c, start)`: first occurrence at an index `≥ start`. -/
def strFindFrom (s : List Char) (c : Char) (start : Nat) : Option Nat :=
  (strFind (s.drop start) c).map (· + start)

/-- Python `s.rfind(c)`: index of the last occurrence of `c`, if any. -/
def strRFind (s : List Char) (c : Char) : Option Nat :=
  match s with
  | [] => none
  | x :: xs =>
    match strRFind xs c with
    | some i => some (i + 1)
    | none => if x = c then some 0 else none

/-- Python `s.startswith(pre)`. -/
def pyStartsWith : List Char → List Char → Bool
  | [], _ => true
  | _ :: _, [] => false
  | p :: ps, x :: xs => p = x && pyStartsWith ps xs

/-- Nonempty all-digit string to its value (the core of Python `int`). -/
def pyIntDigits (s : List Char) : Option Int :=
  if s ≠ [] ∧ s.all Char.isDigit then
    some ((s.foldl (fun acc c => acc * 10 + (c.toNat - 48)) 0 : Nat) : Int)
  else none

/-- Python `int(s)` on strings, modelled as: strip surrounding whitespace,
optional sign, then a nonempty run of ASCII digits (the underscore-separator
and non-ASCII-digit extensions of CPython's grammar are not modelled; no claim
depends on them). -/
def pyIntParse (s : List Char) : Option Int :=
  let t := ((s.dropWhile Char.isWhitespace).reverse.dropWhile
    Char.isWhitespace).reverse
  match t with
  | '+' :: ds => pyIntDigits ds
  | '-' :: ds => (pyIntDigits ds).map (fun n => -n)
  | ds => pyIntDigits ds

/-! ## `parse_rosrpc_uri` -/

def ROSRPC : List Char := "rosrpc://".data

/-- Result of `parse_rosrpc_uri`: either a local (UDS) endpoint path or a
(host, port) pair. -/
inductive RosRpcAddr : Type
  | udsPath (p : List Char)
  | hostPort (host : List Char) (port : Int)
  deriving DecidableEq

/-- `parse_rosrpc_uri`, translated clause by clause from the source: check the
`rosrpc://` scheme, `rfind` the last colon (none ⇒ UDS path), truncate at the
first `/` at or after that colon, split host / port there, and parse the port
as an integer; a failing port parse raises `ParameterInvalid` with the
offending URI in the message (the only fallible statement inside the `try`). -/
def parse_rosrpc_uri (uri : List Char) : Except (List Char) RosRpcAddr :=
  if pyStartsWith ROSRPC uri then
    let dest_addr := uri.drop ROSRPC.length
    match strRFind dest_addr ':' with
    | none => .ok (.udsPath dest_addr)
    | some colon_pos =>
      let dest_addr2 := match strFindFrom dest_addr '/' colon_pos with
        | some slash_pos => dest_addr.take slash_pos
        | none => dest_addr
      let dest_port := dest_addr2.drop (colon_pos + 1)
      let dest_host := dest_addr2.take colon_pos
      match pyIntParse dest_port with
      | some p => .ok (.hostPort dest_host p)
      | none => .error ("ROS service URL is invalid: ".data ++ uri)
  else .error ("Invalid protocol for ROS service URL: ".data ++ uri)

/-! ## `xmlrpcapi` and the RPC client cache -/

/-- Characters legal in a URL scheme, from `urllib.parse.scheme_chars`. -/
def schemeChars : List Char :=
  "abcdefghijklmnopqrstuvwxyzABCDEFGHIJKLMNOPQRSTUVWXYZ0123456789+-.".data

structure UrlParts : Type where
  scheme : List Char
  netloc : List Char
  deriving DecidableEq

/-- Model of `urllib.parse.urlparse` restricted to the two components
`xmlrpcapi` reads: the scheme (text before the first `:` when that text is
nonempty and made of scheme characters, lowercased) and the network location
(after `//`, up to the first of `/`, `?`, `#`). -/
def pyUrlparse (url : List Char) : UrlParts :=
  let (scheme, rest) :=
    match strFind url ':' with
    | some i =>
      if 0 < i ∧ (url.take i).all (· ∈ schemeChars) then
        ((url.take i).map Char.toLower, url.drop (i + 1))
      else ([], url)
    | none => ([], url)
  let netloc :=
    match rest with
    | '/' :: '/' :: r => r.takeWhile (fun c => c ≠ '/' ∧ c ≠ '?' ∧ c ≠ '#')
    | _ => []
  ⟨scheme, netloc⟩

/-- An XML-RPC client handle: a plain `ServerProxy` (uncached path) or a
`_LockedServerProxy` (cached path). -/
inductive Handle : Type
  | proxy (uri : List Char)
  | lockedProxy (uri : List Char)
  deriving DecidableEq

/-- `xmlrpcapi(uri, cache)`: `None` URI ⇒ `None`; a parse missing its scheme
or its netloc ⇒ `None`; `cache=False` ⇒ fresh uncached `ServerProxy`;
otherwise return the cached `_LockedServerProxy`, creating and storing it on a
miss (the double-checked locking collapses to one check sequentially).
Returns (handle or none, updated cache). -/
def xmlrpcapi (uri : Option (List Char)) (cache : Bool)
    (xc : List (List Char × Handle)) :
    Option Handle × List (List Char × Handle) :=
  match uri with
  | none => (none, xc)
  | some u =>
    let uriValidate := pyUrlparse u
    if uriValidate.scheme = [] ∨ uriValidate.netloc = [] then (none, xc)
    else if !cache then (some (.proxy u), xc)
    else
      match dictGet xc u with
      | some h => (some h, xc)
      | none => (some (.lockedProxy u), dictSet xc u (.lockedProxy u))

/-! ## Shutdown coordination (`signal_shutdown` and friends) -/

/-- Behaviour of a registered hook when invoked: returns normally, raises an
instance of `Exception`, or raises a `BaseException` that is not an
`Exception` (e.g. `KeyboardInterrupt`, `SystemExit`).  The distinction matters
because the client/pre phases use a bare `except:` while the normal phase uses
`except Exception`. -/
inductive HookOutcome : Type
  | ok
  | raisesExc
  | raisesBaseExc
  deriving DecidableEq

/-- A registered shutdown hook: an identity plus its behaviour on call. -/
structure Hook : Type where
  id : Nat
  outcome : HookOutcome
  deriving DecidableEq

/-- Observable events of the shutdown machinery:
hook invocations (zero-argument and reason-argument), the `_shutdown_flag`
assignment, `traceback.print_exc()` in the client/pre handlers,
`sys.stderr.write` in the normal-phase handler, the `_logger.warn` emitted by
`_add_shutdown_hook` after shutdown, and the chained invocation of a previous
signal handler. -/
inductive Event : Type
  | invoke0 (id : Nat)
  | invoke1 (id : Nat) (reason : String)
  | setFlag
  | traceExc (id : Nat)
  | stderrHookErr (id : Nat)
  | logWarnAfterShutdown
  | prevInvoke (sig frame : Nat)
  deriving DecidableEq

/-- A tracked worker thread (`threading.Thread`): identity and liveness. -/
structure PyThread : Type where
  ident : Nat
  alive : Bool
  deriving DecidableEq

/-- The module-level mutable state of `rospy.core` used by the shutdown
machinery. -/
structure CoreState : Type where
  shutdown_flag : Bool
  in_shutdown : Bool
  client_shutdown_hooks : List Hook
  preshutdown_hooks : List Hook
  shutdown_hooks : List Hook
  shutdown_threads : List PyThread
  deriving DecidableEq

/-- `is_shutdown()`. -/
def is_shutdown (s : CoreState) : Bool := s.shutdown_flag

/-- `is_shutdown_requested()`. -/
def is_shutdown_requested (s : CoreState) : Bool := s.in_shutdown

/-- The client-hook loop of `signal_shutdown`: call each hook with no
arguments; the bare `except:` catches every raise and prints a traceback. -/
def runClientHooks : List Hook → List Event
  | [] => []
  | h :: hs =>
    match h.outcome with
    | .ok => Event.invoke0 h.id :: runClientHooks hs
    | _ => Event.invoke0 h.id :: Event.traceExc h.id :: runClientHooks hs

/-- The pre-shutdown loop of `signal_shutdown`: call each hook with the
reason; the bare `except:` catches every raise and prints a traceback. -/
def runPreHooks (reason : String) : List Hook → List Event
  | [] => []
  | h :: hs =>
    match h.outcome with
    | .ok => Event.invoke1 h.id reason :: runPreHooks reason hs
    | _ => Event.invoke1 h.id reason :: Event.traceExc h.id ::
        runPreHooks reason hs

/-- The normal-phase loop of `signal_shutdown`: call each hook with the
reason.  `except Exception` catches `Exception` raises (writing to stderr) but
a non-`Exception` `BaseException` propagates, aborting the loop.  Returns the
events plus whether such an exception escaped. -/
def runNormalHooks (reason : String) : List Hook → List Event × Bool
  | [] => ([], false)
  | h :: hs =>
    match h.outcome with
    | .ok =>
      let r := runNormalHooks reason hs
      (Event.invoke1 h.id reason :: r.1, r.2)
    | .raisesExc =>
      let r := runNormalHooks reason hs
      (Event.invoke1 h.id reason :: Event.stderrHookErr h.id :: r.1, r.2)
    | .raisesBaseExc => ([Event.invoke1 h.id reason], true)

/-- `signal_shutdown(reason)`, translated from the source.  The unlocked fast
check and the locked re-check collapse to one test in this sequential model.
When no short-circuit applies: set `_in_shutdown`, run and clear the client
hooks, run and clear the pre-shutdown hooks, raise `_shutdown_flag`, run the
normal hooks; if one of those raised a non-`Exception` `BaseException` the
remaining statements (clearing `_shutdown_hooks`, snapshotting/joining and
clearing `_shutdown_threads`) are skipped and the exception escapes.  The
thread joins and the final `wallsleep` have no effect on this state.
Returns (new state, event trace, escaped). -/
def signal_shutdown (reason : String) (s : CoreState) :
    CoreState × List Event × Bool :=
  if s.shutdown_flag || s.in_shutdown then (s, [], false)
  else
    let ce := runClientHooks s.client_shutdown_hooks
    let pe := runPreHooks reason s.preshutdown_hooks
    let nr := runNormalHooks reason s.shutdown_hooks
    let evts := ce ++ pe ++ Event.setFlag :: nr.1
    if nr.2 then
      ({ s with
          in_shutdown := true
          shutdown_flag := true
          client_shutdown_hooks := []
          preshutdown_hooks := [] }, evts, true)
    else
      ({ s with
          in_shutdown := true
          shutdown_flag := true
          client_shutdown_hooks := []
          preshutdown_hooks := []
          shutdown_hooks := []
          shutdown_threads := [] }, evts, false)

/-- A Python value passed to `_add_shutdown_hook`: a callable (modelled by a
`Hook`) or anything non-callable. -/
inductive PyVal : Type
  | notCallable
  | fn (h : Hook)
  deriving DecidableEq

/-- Which of the three hook registries `_add_shutdown_hook` is given. -/
inductive Phase : Type
  | client
  | pre
  | normal
  deriving DecidableEq

/-- The registry of a phase. -/
def registryOf (ph : Phase) (s : CoreState) : List Hook :=
  match ph with
  | .client => s.client_shutdown_hooks
  | .pre => s.preshutdown_hooks
  | .normal => s.shutdown_hooks

/-- Append a hook to the registry of a phase. -/
def appendHook (ph : Phase) (h : Hook) (s : CoreState) : CoreState :=
  match ph with
  | .client => { s with client_shutdown_hooks := s.client_shutdown_hooks ++ [h] }
  | .pre => { s with preshutdown_hooks := s.preshutdown_hooks ++ [h] }
  | .normal => { s with shutdown_hooks := s.shutdown_hooks ++ [h] }

/-- Result of `_add_shutdown_hook`: `TypeError` raised, hook invoked
immediately (with its events and whether its own raise escaped — there is no
handler around the immediate call), or hook queued. -/
inductive AddHookResult : Type
  | typeError
  | invoked (evts : List Event) (escaped : Bool)
  | queued
  deriving DecidableEq

/-- `_add_shutdown_hook(h, hooks, pass_reason_argument)`, with the registry
argument expressed as the phase selecting a `CoreState` field
(`pass_reason_argument` is false exactly for the client phase).  The
`hooks is None` race-condition guard is unreachable here: the registries are
always lists in this sequential model. -/
def _add_shutdown_hook (v : PyVal) (ph : Phase) (s : CoreState) :
    AddHookResult × CoreState :=
  match v with
  | .notCallable => (.typeError, s)
  | .fn h =>
    if s.shutdown_flag then
      let call := if ph = .client then Event.invoke0 h.id
        else Event.invoke1 h.id "already shutdown"
      (.invoked [Event.logWarnAfterShutdown, call] (h.outcome ≠ .ok), s)
    else (.queued, appendHook ph h s)

/-- `_add_shutdown_thread(t)`: no-op once `_shutdown_flag` is set; otherwise
reap the tracked threads that are no longer alive, then append `t`. -/
def _add_shutdown_thread (t : PyThread) (s : CoreState) : CoreState :=
  if s.shutdown_flag then s
  else { s with shutdown_threads := s.shutdown_threads.filter (·.alive) ++ [t] }

/-- An operation on the shutdown state, for stating "forever thereafter". -/
inductive Op : Type
  | sig (reason : String)
  | addHook (ph : Phase) (v : PyVal)
  | addThread (t : PyThread)

/-- State effect of one operation. -/
def stepOp (o : Op) (s : CoreState) : CoreState :=
  match o with
  | .sig r => (signal_shutdown r s).1
  | .addHook ph v => (_add_shutdown_hook v ph s).2
  | .addThread t => _add_shutdown_thread t s

/-- Run a sequence of operations. -/
def runOps (ops : List Op) (s : CoreState) : CoreState :=
  match ops with
  | [] => s
  | o :: rest => runOps rest (stepOp o s)

/-! ## Signal bridging (`_ros_signal`) -/

/-- A previously installed signal handler as recorded in `_signalChain`:
absent, a non-callable value (`signal.SIG_DFL`, `signal.SIG_IGN`, `None`), or
a callable with a given behaviour when invoked. -/
inductive PrevBehavior : Type
  | ok
  | raisesKI
  | raisesOther
  deriving DecidableEq

inductive PrevHandler : Type
  | notCallable
  | handler (b : PrevBehavior)
  deriving DecidableEq

/-- `_ros_signal(sig, stackframe)`: call `signal_shutdown("signal-"+str(sig))`
first (if that call itself raises, the raise propagates before any chaining);
then look up the previous handler for `sig` and, when callable, invoke it with
the original `(sig, stackframe)` arguments, swallowing a `KeyboardInterrupt`
it raises; any other exception from it propagates. -/
def _ros_signal (sig frame : Nat) (chain : List (Nat × PrevHandler))
    (s : CoreState) : CoreState × List Event × Bool :=
  let t := signal_shutdown ("signal-" ++ toString sig) s
  if t.2.2 then t
  else
    match dictGet chain sig with
    | some (.handler b) =>
      match b with
      | .ok => (t.1, t.2.1 ++ [Event.prevInvoke sig frame], false)
      | .raisesKI => (t.1, t.2.1 ++ [Event.prevInvoke sig frame], false)
      | .raisesOther => (t.1, t.2.1 ++ [Event.prevInvoke sig frame], true)
    | _ => (t.1, t.2.1, false)

/-- Identities of hooks invoked with no argument, in trace order. -/
def invoke0Ids (es : List Event) : List Nat :=
  es.filterMap fun e => match e with | .invoke0 i => some i | _ => none

/-- Identities of hooks invoked with a reason argument, in trace order. -/
def invoke1Ids (es : List Event) : List Nat :=
  es.filterMap fun e => match e with | .invoke1 i _ => some i | _ => none

/-- Identities of all hook invocations, in trace order. -/
def invokeIds (es : List Event) : List Nat :=
  es.filterMap fun e =>
    match e with
    | .invoke0 i => some i
    | .invoke1 i _ => some i
    | _ => none

/-! ## Theorems -/

/-- C10: `xmlrpcapi` called with a `None` URI returns `None` for either value
of the cache flag, leaving the cache untouched and raising nothing — it
returns before any parsing happens. -/
theorem C10_xmlrpcapi_none_uri (cache : Bool) (xc : List (List Char × Handle)) :
    xmlrpcapi none cache xc = (none, xc) := rfl

/-- C7 counterexample: the URI `rosrpc:host` parses with a nonempty scheme
(and an empty netloc), yet `xmlrpcapi` returns `None` — the claim says any URI
whose parse has a scheme component proceeds to construction and yields a
non-null handle. -/
theorem C7_counterexample :
    (pyUrlparse "rosrpc:host".data).scheme ≠ [] ∧
    (pyUrlparse "rosrpc:host".data).netloc = [] ∧
    (xmlrpcapi (some "rosrpc:host".data) true []).1 = none := by decide

/-- C7 amended: `xmlrpcapi` returns a null handle exactly when the parsed URI
lacks its scheme component **or** lacks its network-location component; only a
URI whose parse has both proceeds to handle construction and yields a non-null
handle (never raising). -/
theorem C7_amended_null_iff (u : List Char) (cache : Bool)
    (xc : List (List Char × Handle)) :
    (xmlrpcapi (some u) cache xc).1 = none ↔
      (pyUrlparse u).scheme = [] ∨ (pyUrlparse u).netloc = [] := by
  by_cases h : (pyUrlparse u).scheme = [] ∨ (pyUrlparse u).netloc = []
  · simp [xmlrpcapi, h]
  · simp only [xmlrpcapi, if_neg h]
    cases cache
    · simpa using h
    · cases hd : dictGet xc u <;> simpa [hd] using h

/-- C5 counterexample: with the negative period `-5`, a stored timestamp `10`
greater than `now = 8` is observed, the call emits through the
elapsed-exceeds-period branch, and the other fingerprint's entry survives —
the claim says the *entire* table is discarded whenever a stored timestamp
greater than `now` is observed. -/
theorem C5_counterexample :
    dictGet [(0, 10), (1, 3)] 0 = some (10 : Int) ∧ (10 : Int) > 8 ∧
    (loggingThrottle [(0, 10), (1, 3)] 0 (-5) 8).1 = true ∧
    dictGet (loggingThrottle [(0, 10), (1, 3)] 0 (-5) 8).2 1 = some (3 : Int) := by
  decide

/-- Behaviour of `LoggingThrottle.__call__`: emit iff no timestamp is recorded
for the fingerprint, or the elapsed time exceeds the period, or the recorded
timestamp is in the future; on every emission `now` is recorded; a suppressed
call leaves the table untouched; and — provided the period is nonnegative —
observing a recorded timestamp greater than `now` discards every other
fingerprint's entry before `now` is recorded.  (With a negative period the
elapsed-exceeds-period branch can fire first and skip the global reset.) -/
theorem loggingThrottle_props (tt : List (Nat × Int)) (caller : Nat)
    (p now : Int) :
    ((loggingThrottle tt caller p now).1 = true ↔
      dictGet tt caller = none ∨
        ∃ l, dictGet tt caller = some l ∧ (now - l > p ∨ l > now)) ∧
    ((loggingThrottle tt caller p now).1 = true →
      dictGet (loggingThrottle tt caller p now).2 caller = some now) ∧
    ((loggingThrottle tt caller p now).1 = false →
      (loggingThrottle tt caller p now).2 = tt) ∧
    (0 ≤ p → ∀ l, dictGet tt caller = some l → l > now →
      (loggingThrottle tt caller p now).1 = true ∧
      dictGet (loggingThrottle tt caller p now).2 caller = some now ∧
      ∀ g, g ≠ caller → dictGet (loggingThrottle tt caller p now).2 g = none) := by
  unfold loggingThrottle
  cases hd : dictGet tt caller with
  | none =>
    refine ⟨by simp [dictGet, dictSet], by simp [dictGet, dictSet], by simp, ?_⟩
    intro _ l hl
    simp [hd] at hl
  | some l =>
    by_cases h1 : now - l > p
    · refine ⟨by simp [h1], by simp [h1, dictGet, dictSet], by simp [h1], ?_⟩
      intro hp l0 hl0 hgt
      injection hl0 with he
      omega
    · by_cases h2 : l > now
      · refine ⟨by simp [h1, h2], by simp [h1, h2, dictGet, dictSet],
          by simp [h1, h2], ?_⟩
        intro _ l0 hl0 _
        refine ⟨by simp [h1, h2], by simp [h1, h2, dictGet, dictSet], ?_⟩
        intro g hg
        simp [h1, h2, dictGet, dictSet, Ne.symm hg]
      · refine ⟨?_, by simp [h1, h2], by simp [h1, h2], ?_⟩
        · simp only [h1, h2, if_false]
          constructor
          · intro hc
            exact absurd hc (by simp)
          · rintro (hc | ⟨l0, hl0, hc⟩)
            · simp at hc
            · injection hl0 with he
              subst he
              rcases hc with hc | hc <;> omega
        · intro _ l0 hl0 hgt
          injection hl0 with he
          omega

/-- C5 amended: the throttle policy emits iff no timestamp is recorded for the
fingerprint, or the elapsed time since the recorded timestamp exceeds the
period, or the recorded timestamp is greater than `now`; on every emission
`now` is recorded for the fingerprint; a suppressed call leaves the table
untouched; and — provided the period is nonnegative — observing a recorded
timestamp greater than `now` discards every other fingerprint's entry before
`now` is recorded for the caller (the global reset of the claim). -/
theorem C5_amended_throttle (tt : List (Nat × Int)) (caller : Nat)
    (p now : Int) :
    ((loggingThrottle tt caller p now).1 = true ↔
      dictGet tt caller = none ∨
        ∃ l, dictGet tt caller = some l ∧ (now - l > p ∨ l > now)) ∧
    ((loggingThrottle tt caller p now).1 = true →
      dictGet (loggingThrottle tt caller p now).2 caller = some now) ∧
    ((loggingThrottle tt caller p now).1 = false →
      (loggingThrottle tt caller p now).2 = tt) ∧
    (0 ≤ p → ∀ l, dictGet tt caller = some l → l > now →
      (loggingThrottle tt caller p now).1 = true ∧
      dictGet (loggingThrottle tt caller p now).2 caller = some now ∧
      ∀ g, g ≠ caller → dictGet (loggingThrottle tt caller p now).2 g = none) :=
  loggingThrottle_props tt caller p now

/-- C5 witness: the amended theorem applied at a concrete future-timestamp
table with nonnegative period: the call emits, records `now`, and discards the
other fingerprint. -/
theorem C5_amended_throttle_witness :
    (loggingThrottle [(0, 5), (1, 2)] 0 1 3).1 = true ∧
    dictGet (loggingThrottle [(0, 5), (1, 2)] 0 1 3).2 0 = some (3 : Int) ∧
    dictGet (loggingThrottle [(0, 5), (1, 2)] 0 1 3).2 1 = none := by
  have h := (C5_amended_throttle [(0, 5), (1, 2)] 0 1 3).2.2.2
    (by decide) 5 (by decide) (by decide)
  exact ⟨h.1, h.2.1, h.2.2 1 (by decide)⟩

/-- C4 counterexample: fingerprint 0 has stored timestamp 0 and stored digest
of "a"; at `now = 1` with period 10 the message "b" is emitted (its digest
differs — here the digest function is instantiated to the identity, and the
md5 hexdigests of "a" and "b" differ just the same), yet the stored timestamp
remains 0, not the emission time 1 — the claim says both the new hash and the
emission timestamp are stored on every emission. -/
theorem C4_counterexample :
    (baseLoggerThrottleIdentical (fun s => s) "b" (some 10) 0 1
      [(0, 0)] [(0, "a")]).1 = true ∧
    dictGet (baseLoggerThrottleIdentical (fun s => s) "b" (some 10) 0 1
      [(0, 0)] [(0, "a")]).2.1 0 ≠ some (1 : Int) := by decide

/-- C4 amended: under the identical-dedup policy the message is emitted iff
the digest of the message differs from the stored digest for the fingerprint,
or a period was supplied and the throttle check passes (no recorded timestamp,
elapsed time exceeding the period, or a recorded timestamp in the future).  On
emission the stored digest for the fingerprint equals the digest of the
message.  The timestamp, however, is updated exactly when the throttle check
passes — independently of emission: an emission caused only by a digest change
within the throttle window leaves the previous timestamp in place, and with no
period supplied the throttle table is never touched.  A suppressed call leaves
both tables untouched. -/
theorem C4_amended_throttle_identical (digest : String → String) (msg : String)
    (o : Option Int) (caller : Nat) (now : Int) (tt : List (Nat × Int))
    (it : List (Nat × String)) :
    ((baseLoggerThrottleIdentical digest msg o caller now tt it).1 = true ↔
      dictGet it caller ≠ some (digest msg) ∨
        ∃ p, o = some p ∧ (loggingThrottle tt caller p now).1 = true) ∧
    ((baseLoggerThrottleIdentical digest msg o caller now tt it).1 = true →
      dictGet (baseLoggerThrottleIdentical digest msg o caller now tt it).2.2
        caller = some (digest msg)) ∧
    (∀ p, o = some p → (loggingThrottle tt caller p now).1 = true →
      dictGet (baseLoggerThrottleIdentical digest msg o caller now tt it).2.1
        caller = some now) ∧
    (∀ p, o = some p → (loggingThrottle tt caller p now).1 = false →
      (baseLoggerThrottleIdentical digest msg o caller now tt it).2.1 = tt) ∧
    (o = none →
      (baseLoggerThrottleIdentical digest msg o caller now tt it).2.1 = tt) ∧
    ((baseLoggerThrottleIdentical digest msg o caller now tt it).1 = false →
      (baseLoggerThrottleIdentical digest msg o caller now tt it).2.1 = tt ∧
      (baseLoggerThrottleIdentical digest msg o caller now tt it).2.2 = it) := by
  constructor
  · cases o with
    | none =>
      by_cases hi : dictGet it caller ≠ some (digest msg) <;>
        simp [baseLoggerThrottleIdentical, loggingIdentical, hi]
    | some p =>
      by_cases hi : dictGet it caller ≠ some (digest msg) <;>
        by_cases ht : (loggingThrottle tt caller p now).1 = true <;>
          simp [baseLoggerThrottleIdentical, loggingIdentical, hi, ht]
  · constructor
    · intro hem
      by_cases hi : dictGet it caller ≠ some (digest msg)
      · simp [baseLoggerThrottleIdentical, loggingIdentical, hi, dictGet,
          dictSet]
      · push_neg at hi
        simp [baseLoggerThrottleIdentical, loggingIdentical, hi]
    · refine ⟨?_, ?_, ?_, ?_⟩
      · intro p hp ht
        subst hp
        have := (loggingThrottle_props tt caller p now).2.1 ht
        by_cases hi : dictGet it caller ≠ some (digest msg) <;>
          simpa [baseLoggerThrottleIdentical, loggingIdentical, hi] using this
      · intro p hp ht
        subst hp
        have := (loggingThrottle_props tt caller p now).2.2.1 ht
        by_cases hi : dictGet it caller ≠ some (digest msg) <;>
          simpa [baseLoggerThrottleIdentical, loggingIdentical, hi] using this
      · intro hp
        subst hp
        by_cases hi : dictGet it caller ≠ some (digest msg) <;>
          simp [baseLoggerThrottleIdentical, loggingIdentical, hi]
      · intro hem
        cases o with
        | none =>
          by_cases hi : dictGet it caller ≠ some (digest msg) <;>
            simp [baseLoggerThrottleIdentical, loggingIdentical, hi] at hem ⊢
        | some p =>
          by_cases hi : dictGet it caller ≠ some (digest msg)
          · simp [baseLoggerThrottleIdentical, loggingIdentical, hi] at hem
          · by_cases ht : (loggingThrottle tt caller p now).1 = true
            · simp [baseLoggerThrottleIdentical, loggingIdentical, hi, ht]
                at hem
            · have h2 := (loggingThrottle_props tt caller p now).2.2.1
                (by simpa using ht)
              simp [baseLoggerThrottleIdentical, loggingIdentical, hi, h2]

/-- C4 witness: the amended theorem applied at the counterexample input: the
message is emitted because the digest differs, the new digest is stored, and —
the throttle check failing — the timestamp table keeps its old entry. -/
theorem C4_amended_throttle_identical_witness :
    (baseLoggerThrottleIdentical (fun s => s) "b" (some 10) 0 1
      [(0, 0)] [(0, "a")]).1 = true ∧
    dictGet (baseLoggerThrottleIdentical (fun s => s) "b" (some 10) 0 1
      [(0, 0)] [(0, "a")]).2.2 0 = some "b" ∧
    (baseLoggerThrottleIdentical (fun s => s) "b" (some 10) 0 1
      [(0, 0)] [(0, "a")]).2.1 = [(0, 0)] := by
  have h := C4_amended_throttle_identical (fun s => s) "b" (some 10) 0 1
    [(0, 0)] [(0, "a")]
  refine ⟨h.1.mpr (Or.inl (by decide)), h.2.1 (h.1.mpr (Or.inl (by decide))),
    h.2.2.2.1 10 rfl (by decide)⟩

theorem pyStartsWith_self_append (p r : List Char) :
    pyStartsWith p (p ++ r) = true := by
  induction p with
  | nil => rfl
  | cons x xs ih => simp [pyStartsWith, ih]

theorem strRFind_eq_none (s : List Char) (c : Char) (h : c ∉ s) :
    strRFind s c = none := by
  induction s with
  | nil => rfl
  | cons x xs ih =>
    simp only [List.mem_cons, not_or] at h
    simp [strRFind, ih h.2, Ne.symm h.1]

theorem strRFind_append_cons (a b : List Char) (c : Char) (h : c ∉ b) :
    strRFind (a ++ c :: b) c = some a.length := by
  induction a with
  | nil => simp [strRFind, strRFind_eq_none b c h]
  | cons x xs ih => simp [strRFind, ih]

theorem strFind_cons_ne (x : Char) (s : List Char) (c : Char) (h : x ≠ c) :
    strFind (x :: s) c = (strFind s c).map (· + 1) := by
  simp [strFind, h]

theorem strFind_none_takeWhile (s : List Char) (c : Char)
    (h : strFind s c = none) : s.takeWhile (· ≠ c) = s := by
  induction s with
  | nil => rfl
  | cons x xs ih =>
    by_cases hx : x = c
    · simp [strFind, hx] at h
    · simp only [strFind, if_neg hx, Option.map_eq_none'] at h
      rw [List.takeWhile_cons, if_pos (by simp [hx]), ih h]

theorem strFind_some_take (s : List Char) (c : Char) (k : Nat)
    (h : strFind s c = some k) : s.take k = s.takeWhile (· ≠ c) := by
  induction s generalizing k with
  | nil => simp [strFind] at h
  | cons x xs ih =>
    by_cases hx : x = c
    · subst hx
      simp [strFind] at h
      subst h
      simp
    · simp only [strFind, if_neg hx, Option.map_eq_some'] at h
      obtain ⟨k0, hk0, rfl⟩ := h
      simp [List.takeWhile_cons, hx, ih k0 hk0]

theorem parse_rosrpc_uri_colon (a b : List Char) (hb : ':' ∉ b) :
    parse_rosrpc_uri (ROSRPC ++ (a ++ ':' :: b)) =
      match pyIntParse (b.takeWhile (· ≠ '/')) with
      | some p => .ok (.hostPort a p)
      | none => .error ("ROS service URL is invalid: ".data ++
          (ROSRPC ++ (a ++ ':' :: b))) := by
  have hsw := pyStartsWith_self_append ROSRPC (a ++ ':' :: b)
  have hdropR : (ROSRPC ++ (a ++ ':' :: b)).drop ROSRPC.length = a ++ ':' :: b :=
    List.drop_left _ _
  have hrf := strRFind_append_cons a b ':' hb
  have hdropA : (a ++ ':' :: b).drop a.length = ':' :: b := List.drop_left _ _
  have hff : strFindFrom (a ++ ':' :: b) '/' a.length =
      ((strFind b '/').map (· + 1)).map (· + a.length) := by
    unfold strFindFrom
    rw [hdropA, strFind_cons_ne ':' b '/' (by decide)]
  cases hf : strFind b '/' with
  | none =>
    have hffn : strFindFrom (a ++ ':' :: b) '/' a.length = none := by
      rw [hff, hf]
      rfl
    have hport : (a ++ ':' :: b).drop (a.length + 1) = b := by
      rw [show a ++ ':' :: b = (a ++ [':']) ++ b by simp,
        show a.length + 1 = (a ++ [':']).length by simp]
      exact List.drop_left _ _
    have hhost : (a ++ ':' :: b).take a.length = a := List.take_left _ _
    simp only [parse_rosrpc_uri, hsw, if_true, hdropR, hrf, hffn, hport, hhost,
      strFind_none_takeWhile b '/' hf]
  | some k =>
    have hffs : strFindFrom (a ++ ':' :: b) '/' a.length =
        some (k + 1 + a.length) := by
      rw [hff, hf]
      rfl
    have harith : k + 1 + a.length = (a ++ [':']).length + k := by
      simp
      omega
    have htake : (a ++ ':' :: b).take (k + 1 + a.length) =
        (a ++ [':']) ++ b.take k := by
      rw [show a ++ ':' :: b = (a ++ [':']) ++ b by simp, harith]
      exact List.take_append k
    have hport : ∀ x : List Char, ((a ++ [':']) ++ x).drop (a.length + 1) = x := by
      intro x
      rw [show a.length + 1 = (a ++ [':']).length by simp]
      exact List.drop_left _ _
    have hhost : ∀ x : List Char, ((a ++ [':']) ++ x).take a.length = a := by
      intro x
      rw [List.append_assoc]
      exact List.take_left _ _
    simp only [parse_rosrpc_uri, hsw, if_true, hdropR, hrf, hffs, htake, hport,
      hhost, strFind_some_take b '/' k hf]

/-- C6: `parse_rosrpc_uri` on `rosrpc://<rest>`: with no colon in `<rest>` the
result is `<rest>` as a local endpoint path; otherwise the result pairs the
substring before the last colon (host) with the integer parse of the substring
after it, truncated at the first `/` occurring after that colon (port); a URI
not starting with `rosrpc://`, and a non-numeric port, raise a
parameter-validation error whose message contains the offending URI. -/
theorem C6_parse_rosrpc_uri (uri rest a b : List Char) :
    (pyStartsWith ROSRPC uri = false →
      parse_rosrpc_uri uri =
        .error ("Invalid protocol for ROS service URL: ".data ++ uri)) ∧
    (uri = ROSRPC ++ rest → ':' ∉ rest →
      parse_rosrpc_uri uri = .ok (.udsPath rest)) ∧
    (uri = ROSRPC ++ (a ++ ':' :: b) → ':' ∉ b →
      (∀ p, pyIntParse (b.takeWhile (· ≠ '/')) = some p →
        parse_rosrpc_uri uri = .ok (.hostPort a p)) ∧
      (pyIntParse (b.takeWhile (· ≠ '/')) = none →
        parse_rosrpc_uri uri =
          .error ("ROS service URL is invalid: ".data ++ uri))) := by
  refine ⟨?_, ?_, ?_⟩
  · intro h
    simp [parse_rosrpc_uri, h]
  · intro hu hc
    subst hu
    simp only [parse_rosrpc_uri, pyStartsWith_self_append, if_true,
      List.drop_left, strRFind_eq_none rest ':' hc]
  · intro hu hb
    subst hu
    constructor
    · intro p hp
      rw [parse_rosrpc_uri_colon a b hb, hp]
    · intro hp
      rw [parse_rosrpc_uri_colon a b hb, hp]

/-- C6 witness: the theorem applied at the spec's own examples — a host:port
URI with a trailing path segment, a colon-free local path, and a wrong-scheme
URI. -/
theorem C6_parse_rosrpc_uri_witness :
    parse_rosrpc_uri "rosrpc://h:90/x".data =
      .ok (.hostPort "h".data 90) ∧
    parse_rosrpc_uri "rosrpc://somepath".data =
      .ok (.udsPath "somepath".data) ∧
    parse_rosrpc_uri "http://h".data =
      .error ("Invalid protocol for ROS service URL: ".data ++
        "http://h".data) := by
  refine ⟨?_, ?_, ?_⟩
  · exact ((C6_parse_rosrpc_uri "rosrpc://h:90/x".data [] "h".data
      "90/x".data).2.2 (by decide) (by decide)).1 90 (by decide)
  · exact (C6_parse_rosrpc_uri "rosrpc://somepath".data "somepath".data
      [] []).2.1 (by decide) (by decide)
  · exact (C6_parse_rosrpc_uri "http://h".data [] [] []).1 (by decide)

theorem invoke0Ids_nil : invoke0Ids [] = [] := rfl

theorem invoke0Ids_cons_invoke0 (i : Nat) (es : List Event) :
    invoke0Ids (Event.invoke0 i :: es) = i :: invoke0Ids es := rfl

theorem invoke0Ids_cons_invoke1 (i : Nat) (r : String) (es : List Event) :
    invoke0Ids (Event.invoke1 i r :: es) = invoke0Ids es := rfl

theorem invoke0Ids_cons_traceExc (i : Nat) (es : List Event) :
    invoke0Ids (Event.traceExc i :: es) = invoke0Ids es := rfl

theorem invoke0Ids_cons_stderr (i : Nat) (es : List Event) :
    invoke0Ids (Event.stderrHookErr i :: es) = invoke0Ids es := rfl

theorem invoke1Ids_nil : invoke1Ids [] = [] := rfl

theorem invoke1Ids_cons_invoke0 (i : Nat) (es : List Event) :
    invoke1Ids (Event.invoke0 i :: es) = invoke1Ids es := rfl

theorem invoke1Ids_cons_invoke1 (i : Nat) (r : String) (es : List Event) :
    invoke1Ids (Event.invoke1 i r :: es) = i :: invoke1Ids es := rfl

theorem invoke1Ids_cons_traceExc (i : Nat) (es : List Event) :
    invoke1Ids (Event.traceExc i :: es) = invoke1Ids es := rfl

theorem invoke1Ids_cons_stderr (i : Nat) (es : List Event) :
    invoke1Ids (Event.stderrHookErr i :: es) = invoke1Ids es := rfl

theorem invokeIds_nil : invokeIds [] = [] := rfl

theorem invokeIds_cons_invoke0 (i : Nat) (es : List Event) :
    invokeIds (Event.invoke0 i :: es) = i :: invokeIds es := rfl

theorem invokeIds_cons_invoke1 (i : Nat) (r : String) (es : List Event) :
    invokeIds (Event.invoke1 i r :: es) = i :: invokeIds es := rfl

theorem invokeIds_cons_traceExc (i : Nat) (es : List Event) :
    invokeIds (Event.traceExc i :: es) = invokeIds es := rfl

theorem invokeIds_cons_stderr (i : Nat) (es : List Event) :
    invokeIds (Event.stderrHookErr i :: es) = invokeIds es := rfl

theorem invokeIds_cons_setFlag (es : List Event) :
    invokeIds (Event.setFlag :: es) = invokeIds es := rfl

theorem invokeIds_append (x y : List Event) :
    invokeIds (x ++ y) = invokeIds x ++ invokeIds y := by
  simp [invokeIds]

theorem runClientHooks_invoke0Ids (hs : List Hook) :
    invoke0Ids (runClientHooks hs) = hs.map Hook.id := by
  induction hs with
  | nil => rfl
  | cons h t ih =>
    cases ho : h.outcome <;>
      simp [runClientHooks, ho, invoke0Ids_cons_invoke0,
        invoke0Ids_cons_traceExc, ih]

theorem runClientHooks_invoke1Ids (hs : List Hook) :
    invoke1Ids (runClientHooks hs) = [] := by
  induction hs with
  | nil => rfl
  | cons h t ih =>
    cases ho : h.outcome <;>
      simp [runClientHooks, ho, invoke1Ids_cons_invoke0,
        invoke1Ids_cons_traceExc, ih]

theorem runClientHooks_invokeIds (hs : List Hook) :
    invokeIds (runClientHooks hs) = hs.map Hook.id := by
  induction hs with
  | nil => rfl
  | cons h t ih =>
    cases ho : h.outcome <;>
      simp [runClientHooks, ho, invokeIds_cons_invoke0,
        invokeIds_cons_traceExc, ih]

theorem runClientHooks_noSetFlag (hs : List Hook) :
    Event.setFlag ∉ runClientHooks hs := by
  induction hs with
  | nil => simp [runClientHooks]
  | cons h t ih =>
    cases ho : h.outcome <;> simp [runClientHooks, ho] <;> exact ih

theorem runClientHooks_traceExc (hs : List Hook) :
    ∀ h ∈ hs, h.outcome ≠ .ok → Event.traceExc h.id ∈ runClientHooks hs := by
  induction hs with
  | nil => simp
  | cons h t ih =>
    intro h0 hmem hout
    rcases List.mem_cons.mp hmem with he | ht
    · subst he
      cases ho : h0.outcome
      · exact absurd ho hout
      · simp only [runClientHooks, ho]
        exact List.mem_cons_of_mem _ (List.mem_cons_self _ _)
      · simp only [runClientHooks, ho]
        exact List.mem_cons_of_mem _ (List.mem_cons_self _ _)
    · cases ho : h.outcome
      · simp only [runClientHooks, ho]
        exact List.mem_cons_of_mem _ (ih h0 ht hout)
      · simp only [runClientHooks, ho]
        exact List.mem_cons_of_mem _ (List.mem_cons_of_mem _ (ih h0 ht hout))
      · simp only [runClientHooks, ho]
        exact List.mem_cons_of_mem _ (List.mem_cons_of_mem _ (ih h0 ht hout))

theorem runPreHooks_invoke1Ids (r : String) (hs : List Hook) :
    invoke1Ids (runPreHooks r hs) = hs.map Hook.id := by
  induction hs with
  | nil => rfl
  | cons h t ih =>
    cases ho : h.outcome <;>
      simp [runPreHooks, ho, invoke1Ids_cons_invoke1,
        invoke1Ids_cons_traceExc, ih]

theorem runPreHooks_invoke0Ids (r : String) (hs : List Hook) :
    invoke0Ids (runPreHooks r hs) = [] := by
  induction hs with
  | nil => rfl
  | cons h t ih =>
    cases ho : h.outcome <;>
      simp [runPreHooks, ho, invoke0Ids_cons_invoke1,
        invoke0Ids_cons_traceExc, ih]

theorem runPreHooks_invokeIds (r : String) (hs : List Hook) :
    invokeIds (runPreHooks r hs) = hs.map Hook.id := by
  induction hs with
  | nil => rfl
  | cons h t ih =>
    cases ho : h.outcome <;>
      simp [runPreHooks, ho, invokeIds_cons_invoke1,
        invokeIds_cons_traceExc, ih]

theorem runPreHooks_noSetFlag (r : String) (hs : List Hook) :
    Event.setFlag ∉ runPreHooks r hs := by
  induction hs with
  | nil => simp [runPreHooks]
  | cons h t ih =>
    cases ho : h.outcome <;> simp [runPreHooks, ho] <;> exact ih

theorem runPreHooks_traceExc (r : String) (hs : List Hook) :
    ∀ h ∈ hs, h.outcome ≠ .ok → Event.traceExc h.id ∈ runPreHooks r hs := by
  induction hs with
  | nil => simp
  | cons h t ih =>
    intro h0 hmem hout
    rcases List.mem_cons.mp hmem with he | ht
    · subst he
      cases ho : h0.outcome
      · exact absurd ho hout
      · simp only [runPreHooks, ho]
        exact List.mem_cons_of_mem _ (List.mem_cons_self _ _)
      · simp only [runPreHooks, ho]
        exact List.mem_cons_of_mem _ (List.mem_cons_self _ _)
    · cases ho : h.outcome
      · simp only [runPreHooks, ho]
        exact List.mem_cons_of_mem _ (ih h0 ht hout)
      · simp only [runPreHooks, ho]
        exact List.mem_cons_of_mem _ (List.mem_cons_of_mem _ (ih h0 ht hout))
      · simp only [runPreHooks, ho]
        exact List.mem_cons_of_mem _ (List.mem_cons_of_mem _ (ih h0 ht hout))

theorem runNormalHooks_invoke0Ids (r : String) (hs : List Hook) :
    invoke0Ids (runNormalHooks r hs).1 = [] := by
  induction hs with
  | nil => rfl
  | cons h t ih =>
    cases ho : h.outcome <;>
      simp [runNormalHooks, ho, invoke0Ids_cons_invoke1,
        invoke0Ids_cons_stderr, invoke0Ids_nil, ih]

theorem runNormalHooks_noSetFlag (r : String) (hs : List Hook) :
    Event.setFlag ∉ (runNormalHooks r hs).1 := by
  induction hs with
  | nil => simp [runNormalHooks]
  | cons h t ih =>
    cases ho : h.outcome <;> simp [runNormalHooks, ho] <;> exact ih

theorem runNormalHooks_take (r : String) (hs : List Hook) :
    ∃ k, invoke1Ids (runNormalHooks r hs).1 = (hs.map Hook.id).take k := by
  induction hs with
  | nil => exact ⟨0, rfl⟩
  | cons h t ih =>
    obtain ⟨k, hk⟩ := ih
    cases ho : h.outcome
    · exact ⟨k + 1,
        by simp [runNormalHooks, ho, invoke1Ids_cons_invoke1, hk]⟩
    · exact ⟨k + 1,
        by simp [runNormalHooks, ho, invoke1Ids_cons_invoke1,
          invoke1Ids_cons_stderr, hk]⟩
    · exact ⟨1,
        by simp [runNormalHooks, ho, invoke1Ids_cons_invoke1, invoke1Ids_nil]⟩

theorem runNormalHooks_no_baseExc (r : String) (hs : List Hook)
    (h : ∀ x ∈ hs, x.outcome ≠ .raisesBaseExc) :
    (runNormalHooks r hs).2 = false ∧
    invoke1Ids (runNormalHooks r hs).1 = hs.map Hook.id ∧
    invokeIds (runNormalHooks r hs).1 = hs.map Hook.id ∧
    ∀ x ∈ hs, x.outcome = .raisesExc →
      Event.stderrHookErr x.id ∈ (runNormalHooks r hs).1 := by
  induction hs with
  | nil => exact ⟨rfl, rfl, rfl, by simp⟩
  | cons hk t ih =>
    have hhd : hk.outcome ≠ .raisesBaseExc := h hk (List.mem_cons_self hk t)
    have htl := ih fun x hx => h x (List.mem_cons_of_mem hk hx)
    cases ho : hk.outcome
    · refine ⟨by simp [runNormalHooks, ho, htl.1], ?_, ?_, ?_⟩
      · simp [runNormalHooks, ho, invoke1Ids_cons_invoke1, htl.2.1]
      · simp [runNormalHooks, ho, invokeIds_cons_invoke1, htl.2.2.1]
      · intro x hx hout
        rcases List.mem_cons.mp hx with he | ht
        · subst he
          exact absurd hout (by simp [ho])
        · simp only [runNormalHooks, ho]
          exact List.mem_cons_of_mem _ (htl.2.2.2 x ht hout)
    · refine ⟨by simp [runNormalHooks, ho, htl.1], ?_, ?_, ?_⟩
      · simp [runNormalHooks, ho, invoke1Ids_cons_invoke1,
          invoke1Ids_cons_stderr, htl.2.1]
      · simp [runNormalHooks, ho, invokeIds_cons_invoke1,
          invokeIds_cons_stderr, htl.2.2.1]
      · intro x hx hout
        rcases List.mem_cons.mp hx with he | ht
        · subst he
          simp only [runNormalHooks, ho]
          exact List.mem_cons_of_mem _ (List.mem_cons_self _ _)
        · simp only [runNormalHooks, ho]
          exact List.mem_cons_of_mem _
            (List.mem_cons_of_mem _ (htl.2.2.2 x ht hout))
    · exact absurd ho hhd

theorem signal_shutdown_run (s : CoreState) (r : String)
    (h1 : s.shutdown_flag = false) (h2 : s.in_shutdown = false) :
    (signal_shutdown r s).2.1 =
      runClientHooks s.client_shutdown_hooks ++
        runPreHooks r s.preshutdown_hooks ++
        Event.setFlag :: (runNormalHooks r s.shutdown_hooks).1 ∧
    (signal_shutdown r s).2.2 = (runNormalHooks r s.shutdown_hooks).2 ∧
    ((signal_shutdown r s).1).shutdown_flag = true ∧
    ((signal_shutdown r s).1).in_shutdown = true ∧
    ((signal_shutdown r s).1).client_shutdown_hooks = [] ∧
    ((signal_shutdown r s).1).preshutdown_hooks = [] ∧
    ((runNormalHooks r s.shutdown_hooks).2 = false →
      ((signal_shutdown r s).1).shutdown_hooks = [] ∧
      ((signal_shutdown r s).1).shutdown_threads = []) ∧
    ((runNormalHooks r s.shutdown_hooks).2 = true →
      ((signal_shutdown r s).1).shutdown_hooks = s.shutdown_hooks) := by
  by_cases hn : (runNormalHooks r s.shutdown_hooks).2 = true <;>
    simp [signal_shutdown, h1, h2, hn]

theorem signal_shutdown_skip (s : CoreState) (r : String)
    (h : s.shutdown_flag = true ∨ s.in_shutdown = true) :
    signal_shutdown r s = (s, [], false) := by
  rcases h with h | h <;> simp [signal_shutdown, h]

theorem stepOp_flag_mono (o : Op) (s : CoreState)
    (h : s.shutdown_flag = true) : (stepOp o s).shutdown_flag = true := by
  cases o with
  | sig r => simp [stepOp, signal_shutdown, h]
  | addHook ph v =>
    cases v with
    | notCallable => simpa [stepOp, _add_shutdown_hook] using h
    | fn hk => simp [stepOp, _add_shutdown_hook, h]
  | addThread t => simp [stepOp, _add_shutdown_thread, h]

theorem runOps_flag_mono (ops : List Op) (s : CoreState)
    (h : s.shutdown_flag = true) : (runOps ops s).shutdown_flag = true := by
  induction ops generalizing s with
  | nil => exact h
  | cons o rest ih => exact ih _ (stepOp_flag_mono o s h)

/-- C1: `signal_shutdown` invoked when the state is already
`ShutdownRequested` (`_in_shutdown`) or `ShutdownComplete` (`_shutdown_flag`)
returns at once without invoking any hook or mutating any registry; across any
two calls the hook phases execute during at most one of them; and after the
first call on a fresh state `is_shutdown()` is true and remains true under
every further sequence of operations. -/
theorem C1_signal_shutdown_at_most_once (s : CoreState) (r1 r2 : String) :
    (s.shutdown_flag = true ∨ s.in_shutdown = true →
      signal_shutdown r1 s = (s, [], false)) ∧
    ¬(Event.setFlag ∈ (signal_shutdown r1 s).2.1 ∧
      Event.setFlag ∈ (signal_shutdown r2 (signal_shutdown r1 s).1).2.1) ∧
    (s.shutdown_flag = false → s.in_shutdown = false →
      ∀ ops, is_shutdown (runOps ops (signal_shutdown r1 s).1) = true) := by
  refine ⟨signal_shutdown_skip s r1, ?_, ?_⟩
  · rintro ⟨ha, hb⟩
    by_cases h1 : s.shutdown_flag = true ∨ s.in_shutdown = true
    · rw [signal_shutdown_skip s r1 h1] at ha
      simp at ha
    · push_neg at h1
      obtain ⟨hf, hi⟩ := h1
      have hrun := signal_shutdown_run s r1
        (by simpa using hf) (by simpa using hi)
      rw [signal_shutdown_skip _ r2 (Or.inl hrun.2.2.1)] at hb
      simp at hb
  · intro hf hi ops
    have hrun := signal_shutdown_run s r1 hf hi
    exact runOps_flag_mono ops _ hrun.2.2.1

/-- C1 witness: on the fresh empty state the first call sets the flag
(`is_shutdown` true after no further operations), and a call on a state
already in shutdown returns the state unchanged with no events. -/
theorem C1_signal_shutdown_at_most_once_witness :
    is_shutdown (runOps []
      (signal_shutdown "a" ⟨false, false, [], [], [], []⟩).1) = true ∧
    signal_shutdown "b" ⟨true, true, [], [], [], []⟩ =
      (⟨true, true, [], [], [], []⟩, [], false) := by
  refine ⟨(C1_signal_shutdown_at_most_once ⟨false, false, [], [], [], []⟩
      "a" "x").2.2 rfl rfl [], ?_⟩
  exact (C1_signal_shutdown_at_most_once ⟨true, true, [], [], [], []⟩
      "b" "x").1 (Or.inl rfl)

/-- C2: in an execution of `signal_shutdown` that runs the hook phases, the
event trace decomposes as client-phase events, then pre-phase events, then the
`_shutdown_flag` assignment, then normal-phase events; the zero-argument
(client) invocations are exactly the client registry's hook ids in
registration order before any pre event; the pre invocations are exactly the
pre registry's ids, all before the flag is set; the normal invocations are a
registration-order prefix of the normal registry's ids, all after the flag is
set; and the final state reads `is_shutdown()` true. -/
theorem C2_hook_ordering (s : CoreState) (r : String)
    (h1 : s.shutdown_flag = false) (h2 : s.in_shutdown = false) :
    ∃ evC evP evN k,
      (signal_shutdown r s).2.1 = evC ++ evP ++ Event.setFlag :: evN ∧
      invoke0Ids evC = s.client_shutdown_hooks.map Hook.id ∧
      invoke1Ids evC = [] ∧
      Event.setFlag ∉ evC ∧
      invoke1Ids evP = s.preshutdown_hooks.map Hook.id ∧
      invoke0Ids evP = [] ∧
      Event.setFlag ∉ evP ∧
      invoke1Ids evN = (s.shutdown_hooks.map Hook.id).take k ∧
      invoke0Ids evN = [] ∧
      is_shutdown ((signal_shutdown r s).1) = true := by
  obtain ⟨k, hk⟩ := runNormalHooks_take r s.shutdown_hooks
  have hrun := signal_shutdown_run s r h1 h2
  exact ⟨runClientHooks s.client_shutdown_hooks,
    runPreHooks r s.preshutdown_hooks,
    (runNormalHooks r s.shutdown_hooks).1, k,
    hrun.1,
    runClientHooks_invoke0Ids _,
    runClientHooks_invoke1Ids _,
    runClientHooks_noSetFlag _,
    runPreHooks_invoke1Ids r _,
    runPreHooks_invoke0Ids r _,
    runPreHooks_noSetFlag r _,
    hk,
    runNormalHooks_invoke0Ids r _,
    hrun.2.2.1⟩

/-- C2 witness: the ordering theorem applied to a concrete state with one hook
per phase. -/
theorem C2_hook_ordering_witness :
    ∃ evC evP evN k,
      (signal_shutdown "r" ⟨false, false, [⟨1, .ok⟩], [⟨2, .raisesExc⟩],
        [⟨3, .ok⟩], []⟩).2.1 = evC ++ evP ++ Event.setFlag :: evN ∧
      invoke0Ids evC = [1] ∧
      invoke1Ids evC = [] ∧
      Event.setFlag ∉ evC ∧
      invoke1Ids evP = [2] ∧
      invoke0Ids evP = [] ∧
      Event.setFlag ∉ evP ∧
      invoke1Ids evN = [3].take k ∧
      invoke0Ids evN = [] ∧
      is_shutdown ((signal_shutdown "r" ⟨false, false, [⟨1, .ok⟩],
        [⟨2, .raisesExc⟩], [⟨3, .ok⟩], []⟩).1) = true :=
  C2_hook_ordering ⟨false, false, [⟨1, .ok⟩], [⟨2, .raisesExc⟩],
    [⟨3, .ok⟩], []⟩ "r" rfl rfl

/-- C3 counterexample: a normal-phase hook raising a `BaseException` that is
not an `Exception` (e.g. `KeyboardInterrupt`) is not caught by the phase's
`except Exception` handler: the exception escapes `signal_shutdown`, the
remaining normal hook is never invoked, and the normal-hook registry is left
uncleared — the claim says every raising hook is caught and shutdown runs to
completion with registries cleared. -/
theorem C3_counterexample :
    (signal_shutdown "x" ⟨false, false, [], [],
      [⟨1, .raisesBaseExc⟩, ⟨2, .ok⟩], []⟩).2.2 = true ∧
    ((signal_shutdown "x" ⟨false, false, [], [],
      [⟨1, .raisesBaseExc⟩, ⟨2, .ok⟩], []⟩).1).shutdown_hooks ≠ [] ∧
    Event.invoke1 2 "x" ∉ (signal_shutdown "x" ⟨false, false, [], [],
      [⟨1, .raisesBaseExc⟩, ⟨2, .ok⟩], []⟩).2.1 := by decide

/-- C3 amended: exceptions that are instances of `Exception` are caught,
traced/logged, and never abort the remaining hooks in any phase; in the client
and pre phases even non-`Exception` `BaseException`s are caught.  Provided no
normal-phase hook raises a non-`Exception` `BaseException`, the shutdown
sequence runs to completion: every registered hook of all three phases is
invoked in registration order, each raising hook leaves a trace or stderr
message, the flag is set and all three registries are cleared.  (A normal-phase
hook raising such a `BaseException` instead aborts the remaining normal hooks
and leaves the normal registry uncleared, as the counterexample shows.) -/
theorem C3_amended_fault_isolation (s : CoreState) (r : String)
    (h1 : s.shutdown_flag = false) (h2 : s.in_shutdown = false)
    (h3 : ∀ x ∈ s.shutdown_hooks, x.outcome ≠ .raisesBaseExc) :
    (signal_shutdown r s).2.2 = false ∧
    ((signal_shutdown r s).1).client_shutdown_hooks = [] ∧
    ((signal_shutdown r s).1).preshutdown_hooks = [] ∧
    ((signal_shutdown r s).1).shutdown_hooks = [] ∧
    is_shutdown ((signal_shutdown r s).1) = true ∧
    invokeIds (signal_shutdown r s).2.1 =
      (s.client_shutdown_hooks ++ s.preshutdown_hooks ++
        s.shutdown_hooks).map Hook.id ∧
    (∀ x ∈ s.client_shutdown_hooks, x.outcome ≠ .ok →
      Event.traceExc x.id ∈ (signal_shutdown r s).2.1) ∧
    (∀ x ∈ s.preshutdown_hooks, x.outcome ≠ .ok →
      Event.traceExc x.id ∈ (signal_shutdown r s).2.1) ∧
    (∀ x ∈ s.shutdown_hooks, x.outcome = .raisesExc →
      Event.stderrHookErr x.id ∈ (signal_shutdown r s).2.1) := by
  have hrun := signal_shutdown_run s r h1 h2
  have hnb := runNormalHooks_no_baseExc r s.shutdown_hooks h3
  have hesc : (signal_shutdown r s).2.2 = false := by rw [hrun.2.1, hnb.1]
  refine ⟨hesc, hrun.2.2.2.2.1, hrun.2.2.2.2.2.1,
    (hrun.2.2.2.2.2.2.1 hnb.1).1, hrun.2.2.1, ?_, ?_, ?_, ?_⟩
  · rw [hrun.1, invokeIds_append, invokeIds_append, invokeIds_cons_setFlag,
      runClientHooks_invokeIds, runPreHooks_invokeIds, hnb.2.2.1]
    simp
  · intro x hx hout
    rw [hrun.1]
    exact List.mem_append_left _
      (List.mem_append_left _ (runClientHooks_traceExc _ x hx hout))
  · intro x hx hout
    rw [hrun.1]
    exact List.mem_append_left _
      (List.mem_append_right _ (runPreHooks_traceExc r _ x hx hout))
  · intro x hx hout
    rw [hrun.1]
    exact List.mem_append_right _
      (List.mem_cons_of_mem _ (hnb.2.2.2 x hx hout))

/-- C3 witness: the amended theorem applied to a state with a raising
(`Exception`) hook in every phase: no escape, registries cleared, all hooks
invoked, and every failure traced. -/
theorem C3_amended_fault_isolation_witness :
    (signal_shutdown "w" ⟨false, false, [⟨1, .raisesExc⟩], [⟨2, .raisesExc⟩],
      [⟨3, .raisesExc⟩], []⟩).2.2 = false ∧
    ((signal_shutdown "w" ⟨false, false, [⟨1, .raisesExc⟩], [⟨2, .raisesExc⟩],
      [⟨3, .raisesExc⟩], []⟩).1).shutdown_hooks = [] ∧
    invokeIds (signal_shutdown "w" ⟨false, false, [⟨1, .raisesExc⟩],
      [⟨2, .raisesExc⟩], [⟨3, .raisesExc⟩], []⟩).2.1 = [1, 2, 3] ∧
    Event.stderrHookErr 3 ∈ (signal_shutdown "w" ⟨false, false,
      [⟨1, .raisesExc⟩], [⟨2, .raisesExc⟩], [⟨3, .raisesExc⟩], []⟩).2.1 := by
  have h := C3_amended_fault_isolation ⟨false, false, [⟨1, .raisesExc⟩],
    [⟨2, .raisesExc⟩], [⟨3, .raisesExc⟩], []⟩ "w" rfl rfl (by decide)
  exact ⟨h.1, h.2.2.2.1, h.2.2.2.2.2.1,
    h.2.2.2.2.2.2.2.2 ⟨3, .raisesExc⟩ (by decide) rfl⟩

/-- C8: `_add_shutdown_hook` raises a `TypeError` on a non-callable argument
without touching any registry; a callable registered after the terminal state
(`_shutdown_flag` set) is invoked immediately instead of queued — with no
arguments for the client phase and with reason `"already shutdown"` for the
pre and normal phases — leaving the state unchanged; a callable registered
before the terminal state is appended to the registry of its phase, the other
registries and the lifecycle state untouched. -/
theorem C8_add_shutdown_hook (s : CoreState) (ph : Phase) (h : Hook) :
    _add_shutdown_hook .notCallable ph s = (.typeError, s) ∧
    (s.shutdown_flag = true →
      _add_shutdown_hook (.fn h) ph s =
        (.invoked [Event.logWarnAfterShutdown,
          if ph = .client then Event.invoke0 h.id
          else Event.invoke1 h.id "already shutdown"] (h.outcome ≠ .ok), s)) ∧
    (s.shutdown_flag = false →
      _add_shutdown_hook (.fn h) ph s = (.queued, appendHook ph h s) ∧
      registryOf ph (appendHook ph h s) = registryOf ph s ++ [h] ∧
      (∀ ph2, ph2 ≠ ph → registryOf ph2 (appendHook ph h s) = registryOf ph2 s) ∧
      (appendHook ph h s).shutdown_flag = s.shutdown_flag ∧
      (appendHook ph h s).in_shutdown = s.in_shutdown) := by
  refine ⟨rfl, ?_, ?_⟩
  · intro hf
    simp [_add_shutdown_hook, hf]
  · intro hf
    refine ⟨by simp [_add_shutdown_hook, hf], ?_, ?_, ?_, ?_⟩
    · cases ph <;> simp [appendHook, registryOf]
    · intro ph2 hne
      cases ph <;> cases ph2 <;> simp_all [appendHook, registryOf]
    · cases ph <;> simp [appendHook]
    · cases ph <;> simp [appendHook]

/-- C8 witness: the theorem applied with the flag set (immediate invocation of
a pre-phase hook with reason `"already shutdown"`) and with the flag clear
(queuing into the normal registry). -/
theorem C8_add_shutdown_hook_witness :
    _add_shutdown_hook (.fn ⟨5, .ok⟩) .pre ⟨true, true, [], [], [], []⟩ =
      (.invoked [Event.logWarnAfterShutdown,
        Event.invoke1 5 "already shutdown"] false,
        ⟨true, true, [], [], [], []⟩) ∧
    _add_shutdown_hook (.fn ⟨6, .ok⟩) .normal ⟨false, false, [], [], [], []⟩ =
      (.queued, ⟨false, false, [], [], [⟨6, .ok⟩], []⟩) := by
  constructor
  · have h := (C8_add_shutdown_hook ⟨true, true, [], [], [], []⟩ .pre
      ⟨5, .ok⟩).2.1 rfl
    simpa using h
  · have h := ((C8_add_shutdown_hook ⟨false, false, [], [], [], []⟩ .normal
      ⟨6, .ok⟩).2.2 rfl).1
    simpa [appendHook] using h

/-- C9: `_ros_signal` first runs `signal_shutdown` with reason
`"signal-<sig>"` (the final state is exactly that call's state); then, when
that call returns normally and a callable previous handler is recorded for the
signal, it invokes that handler with the original `(sig, frame)` arguments —
the invocation appearing after all shutdown events — and a `KeyboardInterrupt`
raised by the previous handler is swallowed; when no callable previous handler
is recorded, nothing further happens. -/
theorem C9_ros_signal (sig frame : Nat) (chain : List (Nat × PrevHandler))
    (s : CoreState) :
    (_ros_signal sig frame chain s).1 =
      (signal_shutdown ("signal-" ++ toString sig) s).1 ∧
    ((signal_shutdown ("signal-" ++ toString sig) s).2.2 = false →
      (∀ b, dictGet chain sig = some (.handler b) →
        (_ros_signal sig frame chain s).2.1 =
          (signal_shutdown ("signal-" ++ toString sig) s).2.1 ++
            [Event.prevInvoke sig frame] ∧
        (b = .raisesKI → (_ros_signal sig frame chain s).2.2 = false)) ∧
      ((dictGet chain sig = none ∨ dictGet chain sig = some .notCallable) →
        (_ros_signal sig frame chain s).2.1 =
          (signal_shutdown ("signal-" ++ toString sig) s).2.1 ∧
        (_ros_signal sig frame chain s).2.2 = false)) := by
  constructor
  · by_cases he : (signal_shutdown ("signal-" ++ toString sig) s).2.2 = true
    · simp [_ros_signal, he]
    · simp only [Bool.not_eq_true] at he
      cases hd : dictGet chain sig with
      | none => simp [_ros_signal, he, hd]
      | some ph =>
        cases ph with
        | notCallable => simp [_ros_signal, he, hd]
        | handler b => cases b <;> simp [_ros_signal, he, hd]
  · intro he
    constructor
    · intro b hd
      refine ⟨?_, ?_⟩
      · cases b <;> simp [_ros_signal, he, hd]
      · intro hb
        subst hb
        simp [_ros_signal, he, hd]
    · intro hd
      rcases hd with hd | hd <;> simp [_ros_signal, he, hd]

/-- C9 witness: applied with a recorded previous handler that raises
`KeyboardInterrupt`: the chained invocation follows the shutdown events and
the interrupt is swallowed. -/
theorem C9_ros_signal_witness :
    (_ros_signal 2 7 [(2, PrevHandler.handler .raisesKI)]
      ⟨false, false, [], [], [], []⟩).2.1 =
      (signal_shutdown ("signal-" ++ toString 2)
        ⟨false, false, [], [], [], []⟩).2.1 ++ [Event.prevInvoke 2 7] ∧
    (_ros_signal 2 7 [(2, PrevHandler.handler .raisesKI)]
      ⟨false, false, [], [], [], []⟩).2.2 = false := by
  have h := (C9_ros_signal 2 7 [(2, PrevHandler.handler .raisesKI)]
    ⟨false, false, [], [], [], []⟩).2 (by decide)
  exact ⟨(h.1 .raisesKI (by decide)).1, (h.1 .raisesKI (by decide)).2 rfl⟩
